import Mathlib

/-!
Shallow embedding of nicolai86/compasscard (Go).

Source layout:
  * `src/compasscard.go` — the decoder: `parseAmount`, `parseUsageRecord`,
    `Parse`, the timestamp layout `Jan-02-2006 15:04 PM`.
  * the serving collaborator (`cmd/server/main.go` of the repository):
    `isCurrentMonth`, `lookup` (live fetch), `lookupAndCache` (two-tier
    cache), `ServeHTTP`; where that file is not available under src/, its
    definitions follow the spec's Month Cache and Serving Interface
    sections, and `isCurrentMonth` in particular is modelled from the
    spec's words (see its doc comment).

Modelling conventions:
  * Go `float64` amounts are modelled as `ℚ`.  Every decimal string the
    development touches denotes a dyadic rational that `float64` represents
    exactly, so decimal-string parsing agrees with `strconv.ParseFloat` on
    all inputs used here.
  * Go `time.Time` appears in two disjoint roles and is modelled twice:
    `GoTime` for the instants produced by `time.Parse` inside the decoder
    (year, month, day, hour, minute — the only components the layout sets),
    and `Instant` (civil days since the Unix epoch plus second-of-day) for
    the server's date arithmetic (`AddDate`, `After`, `Before`, `Format`).
  * A Go runtime panic (index out of range) is a distinct outcome
    constructor (`crash`), kept apart from returned `error` values.
  * `strconv.ParseFloat` is modelled on its plain decimal / scientific
    syntax (sign, digits, one optional dot, optional exponent); the special
    forms (inf, NaN, hex mantissas, digit-separating underscores) are not
    reachable from any input considered here.
-/

/-- Is the character an ASCII decimal digit (mirrors the digit checks of the
Go standard library routines that the source delegates to). -/
def isDig (c : Char) : Bool := '0' ≤ c && c ≤ '9'

/-- Numeric value of an ASCII digit. -/
def digitVal (c : Char) : Nat := c.toNat - '0'.toNat

/-- Take the maximal run of leading digits. -/
def takeDigits : List Char → List Char × List Char
  | [] => ([], [])
  | c :: rest =>
    if isDig c then
      let p := takeDigits rest
      (c :: p.1, p.2)
    else ([], c :: rest)

/-- Read a digit string as a natural number (most significant digit first). -/
def natOfDigits (ds : List Char) : Nat :=
  ds.foldl (fun a c => 10 * a + digitVal c) 0

/-- The syntactic parts of a decimal / scientific number: sign, integer
digits, fraction digits (value and count), exponent sign and digits. -/
structure DecParts where
  neg : Bool
  intVal : Nat
  fracVal : Nat
  fracLen : Nat
  expNeg : Bool
  expVal : Nat
  deriving DecidableEq, Repr

/-- Syntax phase of the `strconv.ParseFloat` model on plain decimal /
scientific syntax: optional sign, digits with at most one decimal point
(at least one digit overall), optional exponent part.  `none` models a
`strconv` parse error. -/
def goParseFloatParts (s : String) : Option DecParts :=
  let cs := s.data
  let sgn : Bool × List Char :=
    match cs with
    | '-' :: r => (true, r)
    | '+' :: r => (false, r)
    | _ => (false, cs)
  let ip := takeDigits sgn.2
  let fp : List Char × List Char :=
    match ip.2 with
    | '.' :: r => takeDigits r
    | _ => ([], ip.2)
  if ip.1 = [] ∧ fp.1 = [] then none
  else
    match fp.2 with
    | [] => some ⟨sgn.1, natOfDigits ip.1, natOfDigits fp.1, fp.1.length, false, 0⟩
    | e :: r =>
      if e = 'e' ∨ e = 'E' then
        let esgn : Bool × List Char :=
          match r with
          | '-' :: rr => (true, rr)
          | '+' :: rr => (false, rr)
          | _ => (false, r)
        let eds := takeDigits esgn.2
        if eds.1 = [] ∨ eds.2 ≠ [] then none
        else
          some ⟨sgn.1, natOfDigits ip.1, natOfDigits fp.1, fp.1.length,
                esgn.1, natOfDigits eds.1⟩
      else none

/-- Exact rational value of parsed parts:
`±(intVal.fracVal) · 10^(±expVal)`, written with `mkRat` so it is a single
quotient of integers. -/
def partsValue (p : DecParts) : ℚ :=
  let m : Int := (p.intVal * 10 ^ p.fracLen + p.fracVal : Nat)
  let m' : Int := if p.neg then -m else m
  if p.expNeg then mkRat m' (10 ^ (p.fracLen + p.expVal))
  else mkRat (m' * (10 : Int) ^ p.expVal) (10 ^ p.fracLen)

/-- Model of `strconv.ParseFloat(val, 64)` as used by `parseAmount`: the
exact rational value of the decimal string (exact for every value a
claim touches, where the `float64` rounding is the identity). -/
def goParseFloat (s : String) : Option ℚ :=
  (goParseFloatParts s).map partsValue

/-- Model of Go `strings.Replace(s, "$", "", -1)` on the character list:
every occurrence of the one-character pattern is deleted. -/
def replaceDollarChars : List Char → List Char
  | [] => []
  | c :: cs => if c = '$' then replaceDollarChars cs else c :: replaceDollarChars cs

/-- `strings.Replace(amount, "$", "", -1)` from `parseAmount`
(src/compasscard.go line 93). -/
def stripDollar (s : String) : String := ⟨replaceDollarChars s.data⟩

/-- Model of `parseAmount` (src/compasscard.go lines 92–98): strip every
dollar sign, map the empty remainder to `0.0`, otherwise `ParseFloat`. -/
def parseAmount (amount : String) : Option ℚ :=
  let val := stripDollar amount
  if val = "" then some 0
  else goParseFloat val

/-- The instant produced by `time.Parse` under the layout
`Jan-02-2006 15:04 PM`: the only components the layout sets. -/
structure GoTime where
  year : Nat
  month : Nat
  day : Nat
  hour : Nat
  minute : Nat
  deriving DecidableEq, Repr

/-- Lower-cased three-letter month abbreviations, in Go's
`shortMonthNames` order (Go matches them case-insensitively). -/
def monthNames : List (List Char) :=
  [['j','a','n'], ['f','e','b'], ['m','a','r'], ['a','p','r'],
   ['m','a','y'], ['j','u','n'], ['j','u','l'], ['a','u','g'],
   ['s','e','p'], ['o','c','t'], ['n','o','v'], ['d','e','c']]

/-- Match a three-letter month name prefix, returning the month number
(1–12) and the remaining characters. -/
def matchMonth : List Char → Option (Nat × List Char)
  | a :: b :: c :: rest =>
    match monthNames.findIdx? (fun n => n = [a.toLower, b.toLower, c.toLower]) with
    | some i => some (i + 1, rest)
    | none => none
  | _ => none

/-- Expect one literal character. -/
def expectChar (c : Char) : List Char → Option (List Char)
  | d :: rest => if d = c then some rest else none
  | [] => none

/-- Exactly two digits (a zero-padded layout element such as `02` or `04`). -/
def num2 : List Char → Option (Nat × List Char)
  | a :: b :: rest =>
    if isDig a && isDig b then some (10 * digitVal a + digitVal b, rest) else none
  | _ => none

/-- Exactly four digits (the `2006` year element). -/
def num4 : List Char → Option (Nat × List Char)
  | a :: b :: c :: d :: rest =>
    if isDig a && isDig b && isDig c && isDig d then
      some (1000 * digitVal a + 100 * digitVal b + 10 * digitVal c + digitVal d, rest)
    else none
  | _ => none

/-- One or two digits (the non-padded `15` hour element: Go `getnum` with
`fixed = false`). -/
def num1or2 : List Char → Option (Nat × List Char)
  | a :: b :: rest =>
    if isDig a then
      if isDig b then some (10 * digitVal a + digitVal b, rest)
      else some (digitVal a, b :: rest)
    else none
  | [a] => if isDig a then some (digitVal a, []) else none
  | [] => none

/-- The `PM` layout element: the value must be exactly `PM` or `AM`.
Returns whether the PM marker was seen. -/
def matchAMPM : List Char → Option (Bool × List Char)
  | 'P' :: 'M' :: rest => some (true, rest)
  | 'A' :: 'M' :: rest => some (false, rest)
  | _ => none

/-- Is the (proleptic Gregorian) year a leap year. -/
def isLeap (y : Nat) : Bool := y % 4 = 0 && (y % 100 ≠ 0 || y % 400 = 0)

/-- Number of days in a month. -/
def daysInMonth (y m : Nat) : Nat :=
  if m = 2 then (if isLeap y then 29 else 28)
  else if m = 4 ∨ m = 6 ∨ m = 9 ∨ m = 11 then 30
  else 31

/-- Model of `time.Parse(usageRecordLayout, value)` for the layout constant
`Jan-02-2006 15:04 PM` (src/compasscard.go line 90): month abbreviation,
`-`, two-digit day, `-`, four-digit year, space, one-or-two-digit hour
(checked against 0–23), `:`, two-digit minute (0–59), space, `PM`/`AM`,
end of input; the day is checked against the month's length, and as in Go
the PM marker lifts an hour below 12 into the afternoon while AM maps
hour 12 to 0. -/
def parseUsageTime (s : String) : Option GoTime := do
  let (mon, r1) ← matchMonth s.data
  let r2 ← expectChar '-' r1
  let (day, r3) ← num2 r2
  let r4 ← expectChar '-' r3
  let (year, r5) ← num4 r4
  let r6 ← expectChar ' ' r5
  let (hour, r7) ← num1or2 r6
  if 24 ≤ hour then none else
  let r8 ← expectChar ':' r7
  let (minute, r9) ← num2 r8
  if 60 ≤ minute then none else
  let r10 ← expectChar ' ' r9
  let (pm, r11) ← matchAMPM r10
  if r11 ≠ [] then none else
  if day < 1 ∨ daysInMonth year mon < day then none else
  let hour' := if pm ∧ hour < 12 then hour + 12 else if ¬ pm ∧ hour = 12 then 0 else hour
  some ⟨year, mon, day, hour', minute⟩

/-- One decoded row (src/compasscard.go lines 71–83; `BalanceDetails` is the
currency-parsed variant of that file). -/
structure UsageRecord where
  DateTime : GoTime
  Transaction : String
  Product : String
  LineItem : String
  Amount : ℚ
  BalanceDetails : ℚ
  OrderDate : String
  Payment : String
  OrderNumber : String
  AuthCode : String
  Total : String
  deriving DecidableEq, Repr

/-- The two `error` values `parseUsageRecord` can return: a `time.Parse`
failure on field 0, or a `strconv.ParseFloat` failure on field 4 or 5. -/
inductive RowErr where
  | badTime : RowErr
  | badAmount : RowErr
  deriving DecidableEq, Repr

/-- Outcome of `parseUsageRecord` on one row: a record, a returned error,
or a Go runtime panic (index out of range on a row shorter than 11
fields) — the panic is a process crash, not a returned error. -/
inductive RowOutcome where
  | ok : UsageRecord → RowOutcome
  | err : RowErr → RowOutcome
  | crash : RowOutcome
  deriving DecidableEq, Repr

/-- Model of `parseUsageRecord` (src/compasscard.go lines 100–128).  Field
accesses happen in the Go evaluation order — `line[0]` (then `time.Parse`),
`line[4]` (then `parseAmount`), `line[5]` (then `parseAmount`), then the
struct literal's `line[1]`, `line[2]`, `line[3]`, `line[6]`…`line[10]` —
and the first out-of-range access crashes. -/
def parseUsageRecord (ln : List String) : RowOutcome :=
  match ln[0]? with
  | none => .crash
  | some f0 =>
    match parseUsageTime f0 with
    | none => .err .badTime
    | some t =>
      match ln[4]? with
      | none => .crash
      | some f4 =>
        match parseAmount f4 with
        | none => .err .badAmount
        | some amount =>
          match ln[5]? with
          | none => .crash
          | some f5 =>
            match parseAmount f5 with
            | none => .err .badAmount
            | some balance =>
              match ln[1]?, ln[2]?, ln[3]?, ln[6]?, ln[7]?,
                    ln[8]?, ln[9]?, ln[10]? with
              | some f1, some f2, some f3, some f6, some f7,
                some f8, some f9, some f10 =>
                .ok ⟨t, f1, f2, f3, amount, balance, f6, f7, f8, f9, f10⟩
              | _, _, _, _, _, _, _, _ => .crash

/-- The `error` values `Parse` can return: an `encoding/csv` field-count
mismatch (`ErrFieldCount`), or a row-level parse error. -/
inductive ParseErr where
  | fieldCount : ParseErr
  | row : RowErr → ParseErr
  deriving DecidableEq, Repr

/-- Outcome of `Parse`: decoded records, a returned error, or a crash
propagated from `parseUsageRecord`. -/
inductive ParseOutcome where
  | ok : List UsageRecord → ParseOutcome
  | err : ParseErr → ParseOutcome
  | crash : ParseOutcome
  deriving DecidableEq, Repr

/-- The read loop of `Parse` (src/compasscard.go lines 137–155) fused with
the `encoding/csv` reader's default field-count discipline
(`FieldsPerRecord = 0`): the first record fixes the expected field count
and any later record with a different count is a read error.  `fpr` is the
field count once fixed, `isHeader` marks the unconditional header skip,
`acc` the records decoded so far (returned in row order). -/
def parseLoop : Option Nat → Bool → List UsageRecord → List (List String) → ParseOutcome
  | _, _, acc, [] => .ok acc
  | fpr, isHeader, acc, row :: rest =>
    let n := fpr.getD row.length
    if row.length ≠ n then .err .fieldCount
    else if isHeader then parseLoop (some n) false acc rest
    else
      match parseUsageRecord row with
      | .crash => .crash
      | .err e => .err (.row e)
      | .ok r => parseLoop (some n) false (acc ++ [r]) rest

/-- Model of `Parse` (src/compasscard.go lines 133–157), over the comma
separated rows the csv reader yields from the payload. -/
def Parse (rows : List (List String)) : ParseOutcome :=
  parseLoop none true [] rows

/-- Split a character list at a separator character. -/
def splitOnChar (sep : Char) : List Char → List (List Char)
  | [] => [[]]
  | c :: cs =>
    if c = sep then [] :: splitOnChar sep cs
    else
      match splitOnChar sep cs with
      | [] => [[c]]
      | g :: gs => (c :: g) :: gs

/-- Rows of a quote-free CSV payload, as `encoding/csv` yields them: lines
split on newlines with fully empty lines skipped, each line split on
commas. -/
def csvRows (payload : String) : List (List String) :=
  ((splitOnChar '\n' payload.data).filter (fun l => l ≠ [])).map
    (fun l => (splitOnChar ',' l).map (fun cs => String.mk cs))

/-- `Parse` applied to a raw byte payload (quote-free CSV). -/
def ParseBytes (payload : String) : ParseOutcome :=
  Parse (csvRows payload)

/-- An absolute instant as the server sees it (`time.Time` in UTC):
civil days since the Unix epoch and the second within the day. -/
structure Instant where
  days : Int
  sod : Int
  deriving DecidableEq, Repr

/-- Days since 1970-01-01 of a civil date (proleptic Gregorian), the
conversion underlying Go's `time.Date`. -/
def daysFromCivil (y m d : Int) : Int :=
  let y' := if m ≤ 2 then y - 1 else y
  let era := Int.fdiv y' 400
  let yoe := y' - era * 400
  let mp := Int.emod (m + 9) 12
  let doy := (153 * mp + 2) / 5 + d - 1
  let doe := yoe * 365 + yoe / 4 - yoe / 100 + doy
  era * 146097 + doe - 719468

/-- Civil date (year, month, day) of a days-since-epoch count; inverse of
`daysFromCivil`. -/
def civilFromDays (z0 : Int) : Int × Int × Int :=
  let z := z0 + 719468
  let era := Int.fdiv z 146097
  let doe := z - era * 146097
  let yoe := (doe - doe / 1460 + doe / 36524 - doe / 146096) / 365
  let y := yoe + era * 400
  let doy := doe - (365 * yoe + yoe / 4 - yoe / 100)
  let mp := (5 * doy + 2) / 153
  let d := doy - (153 * mp + 2) / 5 + 1
  let m := if mp < 10 then mp + 3 else mp - 9
  (if m ≤ 2 then y + 1 else y, m, d)

/-- Model of Go `time.Date(year, month, day, hour, min, sec, 0, time.UTC)`:
out-of-range components are normalized during the conversion (months spill
into years, the day is added as an offset from the first of the month, the
clock spills into days). -/
def mkInstant (y m d hh mi ss : Int) : Instant :=
  let y' := y + Int.fdiv (m - 1) 12
  let m' := Int.emod (m - 1) 12 + 1
  let secs := ss + 60 * mi + 3600 * hh
  { days := daysFromCivil y' m' 1 + (d - 1) + Int.fdiv secs 86400
    sod := Int.emod secs 86400 }

/-- Go `t.Year()`. -/
def yearOf (t : Instant) : Int := (civilFromDays t.days).1

/-- Go `t.Month()`. -/
def monthOf (t : Instant) : Int := (civilFromDays t.days).2.1

/-- Go `t.Day()`. -/
def dayOf (t : Instant) : Int := (civilFromDays t.days).2.2

/-- Total seconds since the epoch; instants compare by this value. -/
def toSec (t : Instant) : Int := t.days * 86400 + t.sod

/-- Go `t.AddDate(years, months, days)`: rebuilds the instant via
`time.Date` from shifted civil components, keeping the clock. -/
def addDate (t : Instant) (years months days : Int) : Instant :=
  mkInstant (yearOf t + years) (monthOf t + months) (dayOf t + days)
    (t.sod / 3600) (t.sod % 3600 / 60) (t.sod % 60)

/-- Modelled from the spec: `isCurrentMonth` of the serving collaborator
(`cmd/server/main.go`, not available under src/).  Per the spec's words,
"current month" is computed as the half-open interval from
`(today − today.day − 1)` — that is, `now.AddDate(0, 0, -now.Day()-1)` —
to one month after that lower bound minus one day: lower bound included,
upper bound excluded. -/
def isCurrentMonth (now date : Instant) : Bool :=
  let beginningOfMonth := addDate now 0 0 (-(dayOf now) - 1)
  let endOfMonth := addDate beginningOfMonth 0 1 (-1)
  decide (toSec beginningOfMonth ≤ toSec date) && decide (toSec date < toSec endOfMonth)

/-- Decimal digits of a nonnegative integer, zero-padded on the left to
width 2 (the `01` month element of Go `Format`). -/
def pad2 (n : Int) : String :=
  let m := n.toNat
  if m < 10 then "0" ++ toString m else toString m

/-- Decimal digits, zero-padded to width 4 (the `2006` year element). -/
def pad4 (n : Int) : String :=
  let m := n.toNat
  if m < 10 then "000" ++ toString m
  else if m < 100 then "00" ++ toString m
  else if m < 1000 then "0" ++ toString m
  else toString m

/-- Go `date.Format("2006-01")` (src/cmd/server/main.go line 48): the
memory-tier cache key — the year and month only, no card serial. -/
def fmtMonthKey (date : Instant) : String :=
  pad4 (yearOf date) ++ "-" ++ pad2 (monthOf date)

/-- Cache file path `fmt.Sprintf("%s/%s-%s.csv", s.tmpdir, ccsn, key)`
(src/cmd/server/main.go line 54): card-qualified, unlike the memory key. -/
def cacheFileName (tmpdir ccsn key : String) : String :=
  tmpdir ++ "/" ++ ccsn ++ "-" ++ key ++ ".csv"

/-- Mutable state the server touches: the process-wide memory tier
(`s.cache`, keyed by month string alone) and the cache directory
(file name to raw payload). -/
structure ServerState where
  cache : List (String × List UsageRecord)
  fs : List (String × List (List String))
  deriving DecidableEq, Repr

/-- Server state with empty memory tier and empty cache directory. -/
def emptyState : ServerState := ⟨[], []⟩

/-- Outcome of one upstream round (session construction plus usage
fetch), fixed by the environment for the call: the raw CSV payload the
portal returns, or a transport failure anywhere in the round. -/
inductive FetchOutcome where
  | ok : List (List String) → FetchOutcome
  | fail : FetchOutcome
  deriving DecidableEq, Repr

/-- The environment one call runs in: what the upstream fetch would
return, and whether a cache-file write would succeed. -/
structure Env where
  fetch : FetchOutcome
  writeOk : Bool
  deriving DecidableEq, Repr

/-- Externally visible side effects of a call, in order: cache-directory
reads and writes, and upstream fetches (`compasscard.New` + `Usage`). -/
inductive Effect where
  | readFile : String → Effect
  | writeFile : String → Effect
  | fetchCall : Effect
  deriving DecidableEq, Repr

/-- Error values the server-side lookups can return (`error` in Go):
transport failure, a decode failure, a cache-file write failure; `crashed`
marks a Go panic propagating out of `Parse` (a process crash in reality). -/
inductive SrvErr where
  | transport : SrvErr
  | format : ParseErr → SrvErr
  | writeFail : SrvErr
  | crashed : SrvErr
  deriving DecidableEq, Repr

/-- What a call to `lookupAndCache` produces: the two Go return values
(records and error — both can be set at once, see the write-failure path),
the server state afterwards, and the effect trace. -/
structure CacheResult where
  records : List UsageRecord
  err : Option SrvErr
  state : ServerState
  trace : List Effect
  deriving DecidableEq, Repr

/-- Model of `lookupAndCache` (src/cmd/server/main.go lines 47–75).
Memory tier first (keyed by month only); then `ioutil.ReadFile` on the
card-qualified cache file; on a full miss one upstream fetch, after which
the memory tier is populated and the raw payload written back —
`return records, err` propagates a write failure alongside the records. -/
def lookupAndCache (tmpdir : String) (env : Env) (st : ServerState)
    (date : Instant) (ccsn : String) : CacheResult :=
  let key := fmtMonthKey date
  match List.lookup key st.cache with
  | some records => ⟨records, none, st, []⟩
  | none =>
    let cacheFile := cacheFileName tmpdir ccsn key
    match List.lookup cacheFile st.fs with
    | some bs =>
      match Parse bs with
      | .ok records =>
        ⟨records, none, { st with cache := (key, records) :: st.cache }, [.readFile cacheFile]⟩
      | .err e => ⟨[], some (.format e), st, [.readFile cacheFile]⟩
      | .crash => ⟨[], some .crashed, st, [.readFile cacheFile]⟩
    | none =>
      match env.fetch with
      | .fail => ⟨[], some .transport, st, [.readFile cacheFile, .fetchCall]⟩
      | .ok raw =>
        match Parse raw with
        | .ok records =>
          let st1 : ServerState := { st with cache := (key, records) :: st.cache }
          if env.writeOk then
            ⟨records, none, { st1 with fs := (cacheFile, raw) :: st1.fs },
              [.readFile cacheFile, .fetchCall, .writeFile cacheFile]⟩
          else
            ⟨records, some .writeFail, st1, [.readFile cacheFile, .fetchCall]⟩
        | .err e => ⟨[], some (.format e), st, [.readFile cacheFile, .fetchCall]⟩
        | .crash => ⟨[], some .crashed, st, [.readFile cacheFile, .fetchCall]⟩

/-- HTTP responses of the serving handler, reduced to what the claims
observe: a JSON body with the card serial and the records, a 400, or a
process crash. -/
inductive Response where
  | ok : String → List UsageRecord → Response
  | badRequest : Response
  | crashed : Response
  deriving DecidableEq, Repr

/-- The current-month branch of `ServeHTTP`: `s.lookup` (session
construction plus usage fetch, src/cmd/server/main.go lines 32–44)
followed by the error check and the JSON encoding. -/
def liveResponse (env : Env) (ccsn : String) : Response :=
  match env.fetch with
  | .fail => .badRequest
  | .ok raw =>
    match Parse raw with
    | .ok records => .ok ccsn records
    | .err _ => .badRequest
    | .crash => .crashed

/-- What a request produces: the response, the state afterwards, and the
effect trace. -/
structure ServeResult where
  resp : Response
  state : ServerState
  trace : List Effect
  deriving DecidableEq, Repr

/-- Model of `ServeHTTP` (src/cmd/server/main.go lines 91–130) after the
query strings have been read as integers: the month range check, then the
current-month live path (no cache interaction), otherwise the cached
path whose error — including a write failure — becomes a 400. -/
def serveHTTP (tmpdir : String) (env : Env) (now : Instant)
    (st : ServerState) (ccsn : String) (year month : Int) : ServeResult :=
  if month < 1 ∨ 12 < month then ⟨.badRequest, st, []⟩
  else
    let date := mkInstant year month 1 0 0 0
    if isCurrentMonth now date then
      ⟨liveResponse env ccsn, st, [.fetchCall]⟩
    else
      let res := lookupAndCache tmpdir env st date ccsn
      match res.err with
      | some _ => ⟨.badRequest, res.state, res.trace⟩
      | none => ⟨.ok ccsn res.records, res.state, res.trace⟩

/-- Number of upstream fetches in a trace. -/
def countFetches (tr : List Effect) : Nat :=
  (tr.filter (fun e => e = .fetchCall)).length

/-- Number of cache-file writes in a trace. -/
def countWrites (tr : List Effect) : Nat :=
  (tr.filter (fun e => match e with | .writeFile _ => true | _ => false)).length

/-- Deleting dollar signs is exactly filtering them out of the character
list. -/
theorem replaceDollarChars_eq_filter (cs : List Char) :
    replaceDollarChars cs = cs.filter (fun c => c ≠ '$') := by
  induction cs with
  | nil => rfl
  | cons c cs ih =>
    by_cases h : c = '$' <;> simp [replaceDollarChars, h, ih, List.filter]

/-- Claim C5: the amount-field parser maps `"$12.50"` to `12.50`, the empty
string to `0.0` rather than an error, `"12.50"` without a currency symbol
to `12.50`, and `"abc"` to a parse error (`FormatError`). -/
theorem parseAmount_spec_examples :
    parseAmount "$12.50" = some (25 / 2 : ℚ) ∧ parseAmount "" = some 0 ∧
    parseAmount "12.50" = some (25 / 2 : ℚ) ∧ parseAmount "abc" = none := by
  refine ⟨?_, ?_, ?_, by decide⟩
  · have h : parseAmount "$12.50" = some (partsValue ⟨false, 12, 50, 2, false, 0⟩) := by
      decide
    rw [h]; norm_num [partsValue, Rat.mkRat_eq_div]
  · simp [parseAmount, stripDollar, replaceDollarChars]
  · have h : parseAmount "12.50" = some (partsValue ⟨false, 12, 50, 2, false, 0⟩) := by
      decide
    rw [h]; norm_num [partsValue, Rat.mkRat_eq_div]

/-- Claim C6: under the decoder's layout `Jan-02-2006 15:04 PM` the value
`"Jan-30-2018 06:08 PM"` parses to January 30 2018 at 18:08 — the PM
marker lifts the hour into 24-hour form. -/
theorem parseUsageTime_pm_shift :
    parseUsageTime "Jan-30-2018 06:08 PM" = some ⟨2018, 1, 30, 18, 8⟩ := by
  decide

/-- Claim C10: the amount parser deletes every `"$"` character wherever it
occurs before numeric parsing — its result depends only on the non-dollar
characters — so `"1$2.50"` parses to `12.50` and `"12$"` to `12.0`. -/
theorem parseAmount_ignores_dollars_anywhere :
    (∀ s t : String, s.data.filter (fun c => c ≠ '$') = t.data.filter (fun c => c ≠ '$') →
      parseAmount s = parseAmount t) ∧
    parseAmount "1$2.50" = some (25 / 2 : ℚ) ∧ parseAmount "12$" = some 12 := by
  refine ⟨?_, ?_, ?_⟩
  case refine_2 =>
    have h : parseAmount "1$2.50" = some (partsValue ⟨false, 12, 50, 2, false, 0⟩) := by
      decide
    rw [h]; norm_num [partsValue, Rat.mkRat_eq_div]
  case refine_3 =>
    have h : parseAmount "12$" = some (partsValue ⟨false, 12, 0, 0, false, 0⟩) := by
      decide
    rw [h]; norm_num [partsValue, Rat.mkRat_eq_div]
  intro s t hst
  have h : stripDollar s = stripDollar t := by
    simp only [stripDollar, replaceDollarChars_eq_filter]
    exact congrArg String.mk hst
  simp only [parseAmount, h]

/-- Witness for C10 at a concrete pair of inputs: a dollar sign in the
middle of the field does not change the parse. -/
theorem parseAmount_ignores_dollars_anywhere_witness :
    parseAmount "9$8.5" = parseAmount "98.5" :=
  parseAmount_ignores_dollars_anywhere.1 "9$8.5" "98.5" (by decide)

/-- A list of length at least 11 starts with eleven explicit elements. -/
theorem exists_eleven (l : List String) (h : 11 ≤ l.length) :
    ∃ a0 a1 a2 a3 a4 a5 a6 a7 a8 a9 a10 tl,
      l = a0 :: a1 :: a2 :: a3 :: a4 :: a5 :: a6 :: a7 :: a8 :: a9 :: a10 :: tl := by
  rcases l with _ | ⟨a0, l⟩
  · simp only [List.length_cons, List.length_nil] at h; omega
  rcases l with _ | ⟨a1, l⟩
  · simp only [List.length_cons, List.length_nil] at h; omega
  rcases l with _ | ⟨a2, l⟩
  · simp only [List.length_cons, List.length_nil] at h; omega
  rcases l with _ | ⟨a3, l⟩
  · simp only [List.length_cons, List.length_nil] at h; omega
  rcases l with _ | ⟨a4, l⟩
  · simp only [List.length_cons, List.length_nil] at h; omega
  rcases l with _ | ⟨a5, l⟩
  · simp only [List.length_cons, List.length_nil] at h; omega
  rcases l with _ | ⟨a6, l⟩
  · simp only [List.length_cons, List.length_nil] at h; omega
  rcases l with _ | ⟨a7, l⟩
  · simp only [List.length_cons, List.length_nil] at h; omega
  rcases l with _ | ⟨a8, l⟩
  · simp only [List.length_cons, List.length_nil] at h; omega
  rcases l with _ | ⟨a9, l⟩
  · simp only [List.length_cons, List.length_nil] at h; omega
  rcases l with _ | ⟨a10, l⟩
  · simp only [List.length_cons, List.length_nil] at h; omega
  exact ⟨a0, a1, a2, a3, a4, a5, a6, a7, a8, a9, a10, l, rfl⟩

/-- A row with at least 11 fields never makes `parseUsageRecord` crash:
every index the Go code touches is in range. -/
theorem parseUsageRecord_not_crash (ln : List String) (h : 11 ≤ ln.length) :
    parseUsageRecord ln ≠ RowOutcome.crash := by
  obtain ⟨a0, a1, a2, a3, a4, a5, a6, a7, a8, a9, a10, tl, rfl⟩ := exists_eleven ln h
  cases hT : parseUsageTime a0 with
  | none => simp [parseUsageRecord, hT]
  | some t =>
    cases hA : parseAmount a4 with
    | none => simp [parseUsageRecord, hT, hA]
    | some amount =>
      cases hB : parseAmount a5 with
      | none => simp [parseUsageRecord, hT, hA, hB]
      | some balance => simp [parseUsageRecord, hT, hA, hB]

/-- Once a field count of at least 11 is fixed, a remaining row with fewer
than 11 fields forces the loop into a returned error: either some row
mismatches the fixed count, or an in-range row fails to parse, before the
short row can be reached. -/
theorem parseLoop_short_row_err :
    ∀ (rest : List (List String)) (acc : List UsageRecord) (n : Nat), 11 ≤ n →
      (∃ r ∈ rest, r.length < 11) →
      ∃ e, parseLoop (some n) false acc rest = ParseOutcome.err e := by
  intro rest
  induction rest with
  | nil =>
    intro acc n _ hex
    rcases hex with ⟨r, hr, _⟩
    cases hr
  | cons row rest ih =>
    intro acc n hn hex
    by_cases hrl : row.length = n
    · have hnc := parseUsageRecord_not_crash row (by omega)
      rcases hex with ⟨r, hr, hrlen⟩
      rcases List.mem_cons.mp hr with rfl | hr'
      · omega
      · cases hout : parseUsageRecord row with
        | crash => exact absurd hout hnc
        | err e => exact ⟨ParseErr.row e, by simp [parseLoop, hrl, hout]⟩
        | ok u =>
          obtain ⟨e, he⟩ := ih (acc ++ [u]) n hn ⟨r, hr', hrlen⟩
          exact ⟨e, by simp [parseLoop, hrl, hout, he]⟩
    · exact ⟨ParseErr.fieldCount, by simp [parseLoop, hrl]⟩

/-- Claim C2, amended: when the first (header) row has at least 11 fields —
which the portal's real header always does — a later row with fewer than 11
fields makes `Parse` return an error (no records, no crash); when the
header itself has fewer than 11 fields, a matching short data row instead
crashes the Go process (see the counterexample). -/
theorem Parse_short_row_errors_with_wide_header
    (hdr : List String) (rest : List (List String)) (hlen : 11 ≤ hdr.length)
    (row : List String) (hmem : row ∈ rest) (hrow : row.length < 11) :
    ∃ e, Parse (hdr :: rest) = ParseOutcome.err e := by
  have h1 : Parse (hdr :: rest) = parseLoop (some hdr.length) false [] rest := by
    simp [Parse, parseLoop]
  obtain ⟨e, he⟩ := parseLoop_short_row_err rest [] hdr.length hlen ⟨row, hmem, hrow⟩
  exact ⟨e, by rw [h1, he]⟩

/-- Header row used by concrete decoder inputs. -/
def hdrRow : List String :=
  ["h0", "h1", "h2", "h3", "h4", "h5", "h6", "h7", "h8", "h9", "h10"]

/-- A well-formed data row. -/
def goodRow : List String :=
  ["Jan-05-2024 09:00 AM", "Purchase", "Monthly Pass", "Adult", "$91.00",
   "$0.00", "", "", "", "", ""]

/-- A data row whose timestamp field does not parse. -/
def badTimeRow : List String :=
  ["nonsense", "Purchase", "Monthly Pass", "Adult", "$1.00",
   "$0.00", "", "", "", "", ""]

/-- Witness for the amended C2: an 11-field header followed by a 2-field
row yields a returned error. -/
theorem Parse_short_row_errors_with_wide_header_witness :
    ∃ e, Parse (hdrRow :: [["x", "y"]]) = ParseOutcome.err e :=
  Parse_short_row_errors_with_wide_header hdrRow [["x", "y"]] (by decide)
    ["x", "y"] (by decide) (by decide)

/-- A payload whose header has 5 fields and whose single data row also has
5 fields, the first of which is a well-formed timestamp. -/
def shortHeaderPayload : String :=
  "a,b,c,d,e\nJan-30-2018 06:08 PM,x,y,z,$1.00"

/-- Counterexample to claim C2 as stated: this payload has a data row with
fewer than 11 comma-separated fields, yet `Parse` does not return an error
result — the Go code panics (index out of range on `line[5]`), a crash. -/
theorem Parse_short_row_crash_counterexample :
    ParseBytes shortHeaderPayload = ParseOutcome.crash := by
  decide

/-- Did the row parse to a record. -/
def RowOutcome.isOk : RowOutcome → Bool
  | .ok _ => true
  | _ => false

/-- The loop maps `pre ++ bad :: post` to the error of `bad` when every
row of `pre` has the fixed field count and parses, and `bad` has the fixed
field count but fails to parse: nothing after `bad` is examined and no
records are returned. -/
theorem parseLoop_first_bad (post : List (List String)) (e : RowErr) :
    ∀ (pre : List (List String)) (acc : List UsageRecord) (n : Nat),
      (∀ r ∈ pre, r.length = n ∧ (parseUsageRecord r).isOk = true) →
      ∀ (bad : List String), bad.length = n → parseUsageRecord bad = RowOutcome.err e →
      parseLoop (some n) false acc (pre ++ bad :: post) = ParseOutcome.err (ParseErr.row e) := by
  intro pre
  induction pre with
  | nil =>
    intro acc n _ bad hblen hbe
    simp [parseLoop, hblen, hbe]
  | cons r pre ih =>
    intro acc n hall bad hblen hbe
    obtain ⟨hrlen, hrok⟩ := hall r (List.mem_cons_self r pre)
    cases hout : parseUsageRecord r with
    | ok u =>
      have hrec := ih (acc ++ [u]) n (fun x hx => hall x (List.mem_cons_of_mem _ hx)) bad hblen hbe
      simp [parseLoop, hrlen, hout, hrec]
    | err e' => rw [hout] at hrok; simp [RowOutcome.isOk] at hrok
    | crash => rw [hout] at hrok; simp [RowOutcome.isOk] at hrok

/-- Claim C7: decoding is all-or-nothing — with a uniform field count, if
the rows before the `i`-th data row all parse and the `i`-th is the first
malformed one (bad timestamp or bad amount), `Parse` returns that row's
error and no records at all: the good rows before it are not returned and
the bad row is not skipped. -/
theorem Parse_stops_at_first_bad_row
    (hdr bad : List String) (pre post : List (List String)) (e : RowErr)
    (hpre : ∀ r ∈ pre, r.length = hdr.length ∧ (parseUsageRecord r).isOk = true)
    (hblen : bad.length = hdr.length)
    (hbe : parseUsageRecord bad = RowOutcome.err e) :
    Parse (hdr :: (pre ++ bad :: post)) = ParseOutcome.err (ParseErr.row e) := by
  have h1 : Parse (hdr :: (pre ++ bad :: post))
      = parseLoop (some hdr.length) false [] (pre ++ bad :: post) := by
    simp [Parse, parseLoop]
  rw [h1]
  exact parseLoop_first_bad post e pre [] hdr.length hpre bad hblen hbe

/-- Witness for C7: a good row, then a row with an unparsable timestamp,
then another good row; the decoder reports the bad row's error and does
not continue past it. -/
theorem Parse_stops_at_first_bad_row_witness :
    Parse (hdrRow :: ([goodRow] ++ badTimeRow :: [goodRow]))
      = ParseOutcome.err (ParseErr.row RowErr.badTime) :=
  Parse_stops_at_first_bad_row hdrRow badTimeRow [goodRow] [goodRow] RowErr.badTime
    (by decide) (by decide) (by decide)

/-- After any `lookupAndCache` call that returns a nil error, the memory
tier holds the returned records under the bare month key. -/
theorem lookupAndCache_success_caches (tmpdir : String) (env : Env) (st : ServerState)
    (date : Instant) (ccsn : String)
    (h : (lookupAndCache tmpdir env st date ccsn).err = none) :
    List.lookup (fmtMonthKey date) (lookupAndCache tmpdir env st date ccsn).state.cache
      = some (lookupAndCache tmpdir env st date ccsn).records := by
  unfold lookupAndCache at h ⊢
  cases hm : List.lookup (fmtMonthKey date) st.cache with
  | some records => simp [hm]
  | none =>
    cases hd : List.lookup (cacheFileName tmpdir ccsn (fmtMonthKey date)) st.fs with
    | some bs =>
      cases hp : Parse bs with
      | ok records => simp [hm, hd, hp, List.lookup]
      | err e => simp [hm, hd, hp] at h
      | crash => simp [hm, hd, hp] at h
    | none =>
      cases hf : env.fetch with
      | fail => simp [hm, hd, hf] at h
      | ok raw =>
        cases hp : Parse raw with
        | ok records =>
          cases hw : env.writeOk with
          | true => simp [hm, hd, hf, hp, hw, List.lookup]
          | false => simp [hm, hd, hf, hp, hw] at h
        | err e => simp [hm, hd, hf, hp] at h
        | crash => simp [hm, hd, hf, hp] at h

/-- Claim C1: the in-memory tier is keyed by the month string alone, so
after a successful cached lookup for card `c1` in a non-current month, a
cached lookup for a different card `c2` and the same month returns `c1`'s
records with no disk read of `c2`'s file and no fetcher call (empty effect
trace, state unchanged). -/
theorem lookupAndCache_month_key_collision
    (tmpdir : String) (env env' : Env) (st : ServerState) (now date : Instant)
    (c1 c2 : String) (res1 : CacheResult) (hne : c1 ≠ c2)
    (hpast : isCurrentMonth now date = false)
    (hres1 : lookupAndCache tmpdir env st date c1 = res1)
    (h1 : res1.err = none) :
    lookupAndCache tmpdir env' res1.state date c2
      = ⟨res1.records, none, res1.state, []⟩ := by
  have hk := lookupAndCache_success_caches tmpdir env st date c1 (by rw [hres1]; exact h1)
  rw [hres1] at hk
  unfold lookupAndCache
  simp [hk]

/-- Raw payload a successful upstream fetch returns in the concrete
scenarios. -/
def rawSample : List (List String) := [hdrRow, goodRow]

/-- Environment whose fetch succeeds with `rawSample` and whose cache
writes succeed. -/
def envSample : Env := ⟨.ok rawSample, true⟩

/-- Environment whose fetch succeeds with `rawSample` but whose cache
writes fail. -/
def envNoWrite : Env := ⟨.ok rawSample, false⟩

/-- A wall clock of 2024-05-15 12:00:00 UTC. -/
def nowSample : Instant := mkInstant 2024 5 15 12 0 0

/-- The queried first-of-month instant for January 2024 — a past month
relative to `nowSample`. -/
def pastDate : Instant := mkInstant 2024 1 1 0 0 0

/-- The record decoded from `goodRow`. -/
def recSample : UsageRecord :=
  ⟨⟨2024, 1, 5, 9, 0⟩, "Purchase", "Monthly Pass", "Adult", mkRat 91 1, mkRat 0 1,
   "", "", "", "", ""⟩

/-- Witness for C1: card `"0001"` fills the cache for 2024-01; the lookup
for card `"0002"` and the same month returns `"0001"`'s records with an
empty effect trace. -/
theorem lookupAndCache_month_key_collision_witness :
    lookupAndCache "/tmp" envSample
        (lookupAndCache "/tmp" envSample emptyState pastDate "0001").state pastDate "0002"
      = ⟨(lookupAndCache "/tmp" envSample emptyState pastDate "0001").records, none,
         (lookupAndCache "/tmp" envSample emptyState pastDate "0001").state, []⟩ :=
  lookupAndCache_month_key_collision "/tmp" envSample envSample emptyState nowSample
    pastDate "0001" "0002" _ (by decide) (by decide) rfl (by decide)

/-- Claim C4: from an empty memory tier and an empty cache directory, a
first cached lookup of a past month fetches exactly once, writes exactly
one cache file and returns the decoded records; a second lookup for the
same key fetches zero further times and returns the identical records. -/
theorem lookupAndCache_fill_then_hit
    (tmpdir : String) (env env' : Env) (now date : Instant) (ccsn : String)
    (raw : List (List String)) (records : List UsageRecord)
    (hpast : isCurrentMonth now date = false)
    (hf : env.fetch = FetchOutcome.ok raw) (hp : Parse raw = ParseOutcome.ok records)
    (hw : env.writeOk = true) :
    (lookupAndCache tmpdir env emptyState date ccsn).records = records ∧
    (lookupAndCache tmpdir env emptyState date ccsn).err = none ∧
    countFetches (lookupAndCache tmpdir env emptyState date ccsn).trace = 1 ∧
    countWrites (lookupAndCache tmpdir env emptyState date ccsn).trace = 1 ∧
    lookupAndCache tmpdir env' (lookupAndCache tmpdir env emptyState date ccsn).state date ccsn
      = ⟨records, none, (lookupAndCache tmpdir env emptyState date ccsn).state, []⟩ := by
  have hcall : lookupAndCache tmpdir env emptyState date ccsn
      = ⟨records, none,
         ⟨[(fmtMonthKey date, records)],
          [(cacheFileName tmpdir ccsn (fmtMonthKey date), raw)]⟩,
         [Effect.readFile (cacheFileName tmpdir ccsn (fmtMonthKey date)), Effect.fetchCall,
          Effect.writeFile (cacheFileName tmpdir ccsn (fmtMonthKey date))]⟩ := by
    simp [lookupAndCache, emptyState, hf, hp, hw, List.lookup]
  rw [hcall]
  refine ⟨rfl, rfl, ?_, ?_, ?_⟩
  · simp [countFetches]
  · simp [countWrites]
  · simp [lookupAndCache, List.lookup]

/-- Witness for C4 in the concrete scenario: fill on the first call, hit
on the second. -/
theorem lookupAndCache_fill_then_hit_witness :
    (lookupAndCache "/tmp" envSample emptyState pastDate "0001").records = [recSample] ∧
    (lookupAndCache "/tmp" envSample emptyState pastDate "0001").err = none ∧
    countFetches (lookupAndCache "/tmp" envSample emptyState pastDate "0001").trace = 1 ∧
    countWrites (lookupAndCache "/tmp" envSample emptyState pastDate "0001").trace = 1 ∧
    lookupAndCache "/tmp" envSample
        (lookupAndCache "/tmp" envSample emptyState pastDate "0001").state pastDate "0001"
      = ⟨[recSample], none, (lookupAndCache "/tmp" envSample emptyState pastDate "0001").state, []⟩ :=
  lookupAndCache_fill_then_hit "/tmp" envSample envSample nowSample pastDate "0001"
    rawSample [recSample] (by decide) (by decide) (by decide) (by decide)

/-- Claim C9: when a past-month lookup reaches the fetch path and the
fetch and decode succeed but the cache-file write fails, the call returns
an error (hard failure) even though the decoded records are returned
alongside it and the memory tier has already been populated with them. -/
theorem lookupAndCache_write_failure_hard_error
    (tmpdir : String) (env : Env) (st : ServerState) (now date : Instant) (ccsn : String)
    (raw : List (List String)) (records : List UsageRecord)
    (hpast : isCurrentMonth now date = false)
    (hmem : List.lookup (fmtMonthKey date) st.cache = none)
    (hdisk : List.lookup (cacheFileName tmpdir ccsn (fmtMonthKey date)) st.fs = none)
    (hf : env.fetch = FetchOutcome.ok raw) (hp : Parse raw = ParseOutcome.ok records)
    (hw : env.writeOk = false) :
    (lookupAndCache tmpdir env st date ccsn).err = some SrvErr.writeFail ∧
    (lookupAndCache tmpdir env st date ccsn).records = records ∧
    List.lookup (fmtMonthKey date) (lookupAndCache tmpdir env st date ccsn).state.cache
      = some records := by
  unfold lookupAndCache
  simp [hmem, hdisk, hf, hp, hw, List.lookup]

/-- Witness for C9 in the concrete scenario: failing write, error returned,
records still produced and cached in memory. -/
theorem lookupAndCache_write_failure_hard_error_witness :
    (lookupAndCache "/tmp" envNoWrite emptyState pastDate "0001").err = some SrvErr.writeFail ∧
    (lookupAndCache "/tmp" envNoWrite emptyState pastDate "0001").records = [recSample] ∧
    List.lookup (fmtMonthKey pastDate)
        (lookupAndCache "/tmp" envNoWrite emptyState pastDate "0001").state.cache
      = some [recSample] :=
  lookupAndCache_write_failure_hard_error "/tmp" envNoWrite emptyState nowSample pastDate
    "0001" rawSample [recSample] (by decide) (by decide) (by decide) (by decide) (by decide)
    (by decide)

/-- Claim C3: a request for a (year, month) classified as current performs
one live fetch, leaves both cache tiers untouched whatever they contained,
and its effect trace is exactly one fetcher call. -/
theorem serveHTTP_current_month_bypasses_cache
    (tmpdir : String) (env : Env) (now : Instant) (st : ServerState)
    (ccsn : String) (year month : Int) (hm1 : 1 ≤ month) (hm2 : month ≤ 12)
    (hcur : isCurrentMonth now (mkInstant year month 1 0 0 0) = true) :
    serveHTTP tmpdir env now st ccsn year month
      = ⟨liveResponse env ccsn, st, [Effect.fetchCall]⟩ ∧
    countFetches (serveHTTP tmpdir env now st ccsn year month).trace = 1 := by
  have hrange : ¬(month < 1 ∨ 12 < month) := by omega
  have h1 : serveHTTP tmpdir env now st ccsn year month
      = ⟨liveResponse env ccsn, st, [Effect.fetchCall]⟩ := by
    simp [serveHTTP, hrange, hcur]
  exact ⟨h1, by rw [h1]; simp [countFetches]⟩

/-- A server state whose memory tier already has an entry for 2024-05. -/
def seededState : ServerState := ⟨[("2024-05", [])], []⟩

/-- Witness for C3: requesting May 2024 under the May-15 wall clock hits
the live path even though the memory tier already has a 2024-05 entry. -/
theorem serveHTTP_current_month_bypasses_cache_witness :
    serveHTTP "/tmp" envSample nowSample seededState "0001" 2024 5
      = ⟨liveResponse envSample "0001", seededState, [Effect.fetchCall]⟩ ∧
    countFetches (serveHTTP "/tmp" envSample nowSample seededState "0001" 2024 5).trace = 1 :=
  serveHTTP_current_month_bypasses_cache "/tmp" envSample nowSample seededState "0001"
    2024 5 (by decide) (by decide) (by decide)

